import Mathlib

/-!
Verification development for the session-orchestrator core of the
claude-telegram-bot repository: the plan-mode gate state machine
(src/plan-mode/state-manager.ts, src/plan-mode/constants.ts), the
permission broker (src/permission-store.ts, src/permissions.ts), the
ask broker (src/ask-user-store.ts), the permission callback of the
session orchestrator (src/session.ts, canUseTool) and the crash-retry
loop of the text handler (src/handlers/text.ts).

The TypeScript sources are shallowly embedded: strings are Lean
strings handled through their character lists, JavaScript Map objects
are association lists with Map.set replace-in-place semantics,
promise resolution is modelled by explicit fired-result lists, and the
JavaScript timer queue is modelled by an explicit list of pending
timers together with a millisecond clock.  Functions keep the names of
the source symbols they embed.
-/

/-! ## Generic string and list helpers (JavaScript semantics) -/

/-- Membership test on a list of strings, mirroring Array.prototype.includes
with strict string equality. -/
def inList (x : String) : List String → Bool
  | [] => false
  | y :: ys => if y = x then true else inList x ys

/-- Prefix test on character lists. -/
def charsPrefixOf : List Char → List Char → Bool
  | [], _ => true
  | _ :: _, [] => false
  | a :: as, b :: bs => if a = b then charsPrefixOf as bs else false

/-- Embedding of String.prototype.startsWith. -/
def strStartsWith (s p : String) : Bool := charsPrefixOf p.data s.data

/-- Embedding of String.prototype.endsWith. -/
def strEndsWith (s p : String) : Bool := charsPrefixOf p.data.reverse s.data.reverse

/-- Infix (substring) test on character lists. -/
def charsInfixOf (needle : List Char) : List Char → Bool
  | [] => charsPrefixOf needle []
  | c :: t => charsPrefixOf needle (c :: t) || charsInfixOf needle t

/-- Embedding of String.prototype.includes. -/
def strIncludes (s sub : String) : Bool := charsInfixOf sub.data s.data

/-- Whitespace characters recognised by the regular-expression class backslash-s
(restricted to the ASCII whitespace characters, the only ones the call sites
can receive). -/
def isWsChar (c : Char) : Bool :=
  c == ' ' || c == '\t' || c == '\n' || c == '\r' || c == '\x0b' || c == '\x0c'

/-- Embedding of String.prototype.trim. -/
def jsTrim (s : String) : String :=
  ⟨(((s.data.dropWhile isWsChar).reverse).dropWhile isWsChar).reverse⟩

/-- Worker for jsSplitWs: the Boolean flag records whether the previous
character belonged to a separator run. -/
def splitWsAux : List Char → List Char → Bool → List String
  | [], acc, _ => [⟨acc.reverse⟩]
  | c :: rest, acc, prevWs =>
    if isWsChar c then
      if prevWs then splitWsAux rest acc true
      else ⟨acc.reverse⟩ :: splitWsAux rest [] true
    else splitWsAux rest (c :: acc) false

/-- Embedding of String.prototype.split with the whitespace-run regular
expression: maximal whitespace runs separate the pieces, and leading or
trailing runs contribute empty pieces exactly as in JavaScript. -/
def jsSplitWs (s : String) : List String := splitWsAux s.data [] false

/-- Take the first n characters of a string (String.prototype.slice(0, n)). -/
def strTake (s : String) (n : Nat) : String := ⟨s.data.take n⟩

/-! ## Plan mode constants (src/plan-mode/constants.ts) -/

/-- Tools allowed in plan mode (constants.ts, RESTRICTED_TOOLS). -/
def RESTRICTED_TOOLS : List String :=
  ["Read", "Glob", "Grep", "Bash", "WritePlan", "UpdatePlan", "ExitPlanMode"]

/-- Write tools that are blocked when plan approval is pending
(constants.ts, WRITE_TOOLS). -/
def WRITE_TOOLS : List String := ["Write", "Edit", "NotebookEdit"]

/-- Embedding of getBaseToolName (constants.ts): strip a leading MCP server
prefix of shape mcp__name__ where name is a nonempty run of characters other
than the underscore, mirroring the anchored greedy regular expression of the
source; any other string is returned unchanged. -/
def getBaseToolName (toolName : String) : String :=
  match toolName.data with
  | 'm' :: 'c' :: 'p' :: '_' :: '_' :: rest =>
    let run := rest.takeWhile (fun c => c != '_')
    let rem := rest.dropWhile (fun c => c != '_')
    match run, rem with
    | _ :: _, '_' :: '_' :: tail => ⟨tail⟩
    | _, _ => toolName
  | _ => toolName

/-- Embedding of isWriteTool (constants.ts). -/
def isWriteTool (toolName : String) : Bool := inList toolName WRITE_TOOLS

/-- Embedding of isToolAllowedInPlanMode (constants.ts). -/
def isToolAllowedInPlanMode (toolName : String) : Bool :=
  inList (getBaseToolName toolName) RESTRICTED_TOOLS

/-! ## Plan mode state machine (src/plan-mode/types.ts, state-manager.ts) -/

/-- Embedding of the PlanState interface (types.ts).  The readonly string
array restricted_tools is a list of strings. -/
structure PlanState where
  session_id : Option String
  plan_mode_enabled : Bool
  active_plan_file : Option String
  plan_created_at : String
  restricted_tools : List String
  plan_approval_pending : Bool
deriving Repr, DecidableEq

/-- Embedding of createEmptyState (types.ts): note that the empty state
carries an empty restricted_tools list. -/
def createEmptyState : PlanState :=
  { session_id := none
    plan_mode_enabled := false
    active_plan_file := none
    plan_created_at := ""
    restricted_tools := []
    plan_approval_pending := false }

/-- Embedding of the PlanStateTransition union type (types.ts). -/
inductive PlanTransition where
  | enterPlanMode
  | writePlan (planFile : String)
  | updatePlan (content : String)
  | requestApproval (requestId : String)
  | approvePlan
  | rejectPlan
  | clearContext
  | exitPlanMode
deriving Repr, DecidableEq

/-- JavaScript falsiness of a nullable string: null and the empty string are
falsy. -/
def jsFalsyStr : Option String → Bool
  | none => true
  | some s => if s = "" then true else false

/-- Embedding of PlanStateManager.transition (state-manager.ts).  The manager
holds a session id; the timestamp produced by new Date is passed in as now.
The Boolean result is the Boolean returned by the method, the state is the
state of the manager after the call (file persistence and logging are
omitted: they do not affect the in-memory state). -/
def planTransition (sessionId : Option String) (now : String) (s : PlanState) :
    PlanTransition → Bool × PlanState
  | .enterPlanMode =>
    (true, { session_id := sessionId
             plan_mode_enabled := true
             active_plan_file := none
             plan_created_at := now
             restricted_tools := RESTRICTED_TOOLS
             plan_approval_pending := false })
  | .writePlan planFile =>
    if !s.plan_mode_enabled then (false, s)
    else (true, { s with active_plan_file := some planFile })
  | .updatePlan _ =>
    if jsFalsyStr s.active_plan_file then (false, s) else (true, s)
  | .requestApproval _ =>
    if jsFalsyStr s.active_plan_file then (false, s)
    else (true, { s with plan_approval_pending := true })
  | .approvePlan =>
    (true, { s with plan_mode_enabled := false, plan_approval_pending := false })
  | .rejectPlan =>
    (true, { s with plan_approval_pending := false })
  | .clearContext => (true, createEmptyState)
  | .exitPlanMode => (true, { s with plan_mode_enabled := false })

/-- Run a list of transitions from a state, keeping only the resulting
states (the Boolean success flags are dropped). -/
def runPlanTransitions (sessionId : Option String) (now : String) :
    PlanState → List PlanTransition → PlanState
  | s, [] => s
  | s, t :: ts => runPlanTransitions sessionId now (planTransition sessionId now s t).2 ts

/-- Embedding of PlanStateManager.isToolAllowed (state-manager.ts). -/
def isToolAllowed (s : PlanState) (toolName : String) : Bool :=
  if !s.plan_mode_enabled then true
  else inList (getBaseToolName toolName) s.restricted_tools

/-- Embedding of PlanStateManager.shouldBlockTool (state-manager.ts):
returns the pair shouldBlock, reason. -/
def shouldBlockTool (s : PlanState) (toolName : String) : Bool × Option String :=
  if s.plan_approval_pending then
    if inList (getBaseToolName toolName) WRITE_TOOLS then
      (true, some "Plan approval pending - write operations blocked")
    else (false, none)
  else (false, none)

/-! ## Persistent project permissions (src/permissions.ts) -/

/-- Tool arguments as the permission layer sees them: the command field (for
Bash), the file_path field (for Read, Write, Edit) and the serialized JSON
blob of the whole argument object. -/
structure ToolInput where
  command : Option String
  file_path : Option String
  serialized : String
deriving Repr, DecidableEq

/-- Embedding of bashTokenSkipped, the skip condition inside
extractBashCommandPrefix (permissions.ts): flags, redirections and shell
operators are skipped. -/
def bashTokenSkipped (t : String) : Bool :=
  strStartsWith t "-" || strStartsWith t "&" || strStartsWith t "|" ||
  strStartsWith t ">" || strStartsWith t "<" ||
  strIncludes t ">&" || strIncludes t "2>"

/-- Word-collection loop of extractBashCommandPrefix: push tokens that are
not skipped and stop once two words are collected. -/
def collectBashWords : List String → List String → List String
  | [], words => words.reverse
  | t :: rest, words =>
    if bashTokenSkipped t then collectBashWords rest words
    else
      let words2 := t :: words
      if 2 ≤ words2.length then words2.reverse else collectBashWords rest words2

/-- Embedding of Array.prototype.join with a single-space separator. -/
def joinSpace : List String → String
  | [] => ""
  | [w] => w
  | w :: rest => w ++ " " ++ joinSpace rest

/-- Embedding of extractBashCommandPrefix (permissions.ts): trim the command,
split it on whitespace runs, and collect up to two tokens that are not flags,
redirections or shell operators. -/
def extractBashCommandPrefix (command : String) : String :=
  joinSpace (collectBashWords (jsSplitWs (jsTrim command)) [])

/-- Embedding of path.posix.isAbsolute. -/
def isAbsolutePath (p : String) : Bool := strStartsWith p "/"

/-- Remove trailing slash characters. -/
def stripTrailingSlashes (cs : List Char) : List Char :=
  (cs.reverse.dropWhile (fun c => c == '/')).reverse

/-- Embedding of path.posix.dirname, following the reference algorithm of
Node: the result is the prefix of the path up to the last slash that is
followed by a non-slash character, with the usual root special cases. -/
def dirname (p : String) : String :=
  match p.data with
  | [] => "."
  | c0 :: _ =>
    let hasRoot := c0 = '/'
    let trimmed := stripTrailingSlashes p.data
    match trimmed.reverse.findIdx? (fun c => c == '/') with
    | none => if hasRoot then "/" else "."
    | some k =>
      let e := trimmed.length - 1 - k
      if e = 0 then (if hasRoot then "/" else ".")
      else if hasRoot ∧ e = 1 then "//"
      else ⟨trimmed.take e⟩

/-- Split a path on slash characters. -/
def splitSlashChars : List Char → List Char → List String
  | [], acc => [⟨acc.reverse⟩]
  | c :: rest, acc =>
    if c = '/' then ⟨acc.reverse⟩ :: splitSlashChars rest []
    else splitSlashChars rest (c :: acc)

/-- Nonempty path components of a path string. -/
def splitSlash (p : String) : List String :=
  (splitSlashChars p.data []).filter (fun s => s != "")

/-- Drop the common prefix of two component lists. -/
def dropCommonPrefix : List String → List String → List String × List String
  | [], t => ([], t)
  | f, [] => (f, [])
  | a :: f, b :: t =>
    if a = b then dropCommonPrefix f t else (a :: f, b :: t)

/-- Embedding of Array.prototype.join with a slash separator. -/
def joinWithSlash : List String → String
  | [] => ""
  | [x] => x
  | x :: rest => x ++ "/" ++ joinWithSlash rest

/-- Embedding of path.posix.relative restricted to absolute paths free of
dot and dot-dot segments, the only inputs the call sites produce (the
working directory and absolute file paths): drop the common component
prefix, then go up once per remaining source component and down the
remaining target components. -/
def pathRelative (fromP toP : String) : String :=
  let pair := dropCommonPrefix (splitSlash fromP) (splitSlash toP)
  joinWithSlash (pair.1.map (fun _ => "..") ++ pair.2)

/-- Embedding of generatePermissionPattern (permissions.ts). -/
def generatePermissionPattern (toolName : String) (input : ToolInput)
    (workingDir : String) : String :=
  if toolName = "Bash" then
    let command := input.command.getD ""
    let pfx := extractBashCommandPrefix command
    if pfx != "" then "Bash(" ++ pfx ++ ":*)"
    else
      let firstToken := (jsSplitWs (jsTrim command)).headD ""
      let ft := if firstToken = "" then "unknown" else firstToken
      "Bash(" ++ ft ++ ":*)"
  else if inList toolName ["Read", "Write", "Edit"] then
    let filePath := input.file_path.getD ""
    if filePath != "" then
      let relativePath :=
        if isAbsolutePath filePath && strStartsWith filePath workingDir then
          pathRelative workingDir filePath
        else filePath
      let dir := dirname relativePath
      if dir != "" && dir != "." then toolName ++ "(" ++ dir ++ "/**)"
      else toolName ++ "(" ++ relativePath ++ ")"
    else toolName
  else toolName

/-- Word characters of the regular-expression class backslash-w. -/
def isWordChar (c : Char) : Bool := c.isAlphanum || c == '_'

/-- Embedding of the anchored pattern parse in matchesSinglePermission
(permissions.ts): a nonempty run of word characters, optionally followed by a
parenthesised nonempty argument part that extends to the closing parenthesis
at the very end of the string and may not span lines (the dot of the
regular expression does not match a newline). -/
def parsePermissionPattern (pattern : String) : Option (String × Option String) :=
  let cs := pattern.data
  let w := cs.takeWhile isWordChar
  let rest := cs.drop w.length
  match w with
  | [] => none
  | _ :: _ =>
    match rest with
    | [] => some (⟨w⟩, none)
    | '(' :: more =>
      match more.reverse with
      | ')' :: midRev =>
        let mid := midRev.reverse
        if mid.isEmpty then none
        else if mid.contains '\n' then none
        else some (⟨w⟩, some ⟨mid⟩)
      | _ => none
    | _ => none

/-- Embedding of matchBashPattern (permissions.ts). -/
def matchBashPattern (command pattern : String) : Bool :=
  if strEndsWith pattern ":*" then
    strStartsWith (jsTrim command) ⟨pattern.data.dropLast.dropLast⟩
  else jsTrim command == pattern

/-- Atoms of the regular expression that matchFilePattern builds from a
pattern containing a star: a star becomes a run of non-slash characters, a
dot stays the match-any metacharacter (the source does not escape it), and
every other character matches itself. -/
inductive GlobAtom where
  | star
  | anyChar
  | lit (c : Char)
deriving Repr, DecidableEq

/-- Translate the pattern characters to atoms. -/
def globAtoms (p : List Char) : List GlobAtom :=
  p.map (fun c => if c = '*' then .star else if c = '.' then .anyChar else .lit c)

/-- Match a list of atoms against a character list, with the backtracking
semantics of the built regular expression: a star consumes any run of
non-slash characters, the any atom consumes one character other than a
newline. -/
def globMatch : List GlobAtom → List Char → Bool
  | [], s => s.isEmpty
  | .lit _ :: _, [] => false
  | .lit c :: ps, x :: xs => if x = c then globMatch ps xs else false
  | .anyChar :: _, [] => false
  | .anyChar :: ps, x :: xs => if x = '\n' then false else globMatch ps xs
  | .star :: ps, s =>
    globMatch ps s ||
      (match s with
       | [] => false
       | x :: xs => if x = '/' then false else globMatch (.star :: ps) xs)
termination_by ps s => (s.length, ps.length)

/-- Embedding of matchFilePattern (permissions.ts). -/
def matchFilePattern (filePath pattern workingDir : String) : Bool :=
  let relativePath :=
    if isAbsolutePath filePath && strStartsWith filePath workingDir then
      pathRelative workingDir filePath
    else filePath
  if strEndsWith pattern "/**" then
    let dir : String := ⟨pattern.data.dropLast.dropLast.dropLast⟩
    strStartsWith relativePath (dir ++ "/") || relativePath == dir
  else if pattern.data.contains '*' then
    globMatch (globAtoms pattern.data) relativePath.data
  else relativePath == pattern || filePath == pattern

/-- Embedding of matchesSinglePermission (permissions.ts). -/
def matchesSinglePermission (toolName : String) (input : ToolInput)
    (pattern workingDir : String) : Bool :=
  match parsePermissionPattern pattern with
  | none => false
  | some (pTool, pArgs) =>
    if pTool != toolName then false
    else
      match pArgs with
      | none => true
      | some args =>
        if toolName = "Bash" then matchBashPattern (input.command.getD "") args
        else if inList toolName ["Read", "Write", "Edit"] then
          matchFilePattern (input.file_path.getD "") args workingDir
        else args == "*"

/-- Embedding of matchesPermission (permissions.ts). -/
def matchesPermission (toolName : String) (input : ToolInput)
    (permissions : List String) (workingDir : String) : Bool :=
  permissions.any (fun pat => matchesSinglePermission toolName input pat workingDir)

/-- Embedding of saveProjectPermission (permissions.ts), with the settings
file .claude/settings.local.json modelled by its permissions.allow list: the
pattern is appended if not already present. -/
def saveProjectPermission (allowList : List String) (pattern : String) : List String :=
  if inList pattern allowList then allowList else allowList ++ [pattern]

/-- Embedding of loadProjectPermissions (permissions.ts) on the same model:
loading returns the stored allow list. -/
def loadProjectPermissions (allowList : List String) : List String := allowList

/-- The always-allow round trip: generate a pattern from a tool invocation,
save it, load the allow list back and match the same invocation against it. -/
def alwaysAllowRoundTrip (toolName : String) (input : ToolInput)
    (workingDir : String) (existing : List String) : Bool :=
  let pat := generatePermissionPattern toolName input workingDir
  let saved := saveProjectPermission existing pat
  matchesPermission toolName input (loadProjectPermissions saved) workingDir

/-! ## Association lists (JavaScript Map semantics) -/

/-- Embedding of Map.prototype.get. -/
def alookup {α : Type} : List (String × α) → String → Option α
  | [], _ => none
  | (k, v) :: t, key => if k = key then some v else alookup t key

/-- Embedding of Map.prototype.set: replace in place, append if absent. -/
def aset {α : Type} : List (String × α) → String → α → List (String × α)
  | [], key, v => [(key, v)]
  | (k, w) :: t, key, v =>
    if k = key then (key, v) :: t else (k, w) :: aset t key v

/-- Embedding of Map.prototype.delete. -/
def aerase {α : Type} : List (String × α) → String → List (String × α)
  | [], _ => []
  | (k, w) :: t, key => if k = key then aerase t key else (k, w) :: aerase t key

/-! ## Permission store (src/permission-store.ts) -/

/-- Status values of a PermissionRequest. -/
inductive PermStatus where
  | pending
  | sent
  | approved
  | denied
  | awaitingComment
deriving Repr, DecidableEq

/-- Embedding of the PermissionRequest interface. -/
structure PermRequest where
  request_id : String
  chat_id : Int
  tool_name : String
  tool_input : String
  formatted_request : String
  status : PermStatus
  response : Option String
  created_at : String
  updated_at : String
deriving Repr, DecidableEq

/-- Embedding of the PermissionResult union.  The allow branch carries the
serialized tool input that the source parses back at resolution time (the
JSON round trip itself is not modelled: the broker treats the blob as
opaque). -/
inductive PermissionResultM where
  | allow (updatedInputSerialized : String)
  | deny (message : String)
deriving Repr, DecidableEq

/-- State of the PermissionStore singleton: the requests map and the
resolvers map.  A stored resolver function is represented by its key, and
calling it is represented by emitting the PermissionResultM it is called
with. -/
structure PermStore where
  requests : List (String × PermRequest)
  resolvers : List String
deriving Repr, DecidableEq

/-- The empty store. -/
def permStoreInit : PermStore := { requests := [], resolvers := [] }

/-- Resolver-map insertion: Map.set on a map whose values are all equal to
their key position, so inserting an already present key leaves the list
unchanged. -/
def resolverInsert (l : List String) (key : String) : List String :=
  if inList key l then l else l ++ [key]

/-- Embedding of PermissionStore.create. -/
def permCreate (st : PermStore) (requestId : String) (chatId : Int)
    (toolName toolInput formattedRequest now : String) : PermStore :=
  { st with
    requests := aset st.requests requestId
      { request_id := requestId
        chat_id := chatId
        tool_name := toolName
        tool_input := toolInput
        formatted_request := formattedRequest
        status := .pending
        response := none
        created_at := now
        updated_at := now } }

/-- Embedding of PermissionStore.update: a missing request is a warned
no-op. -/
def permUpdate (st : PermStore) (requestId : String) (status : PermStatus)
    (response : Option String) (now : String) : PermStore :=
  match alookup st.requests requestId with
  | none => st
  | some r =>
    { st with
      requests := aset st.requests requestId
        { r with
          status := status
          updated_at := now
          response := match response with
            | some x => some x
            | none => r.response } }

/-- Embedding of PermissionStore.createPromise: the promise executor runs
synchronously and only stores the resolver under the request id.  No timer
of any kind is registered: the source contains no setTimeout or setInterval
(its constructor comment reads, no automatic cleanup). -/
def permCreatePromise (st : PermStore) (requestId : String) : PermStore :=
  { st with resolvers := resolverInsert st.resolvers requestId }

/-- Embedding of PermissionStore.resolve.  When no resolver is stored under
the id the call only logs a warning and changes nothing.  Otherwise the
resolver fires: an approval fires allow with the stored serialized input
(falling back to the empty JSON object when the request record is missing
or its input is empty), a denial fires deny with the given message or the
default one; afterwards both the resolver and the request record are
deleted. -/
def permResolve (st : PermStore) (requestId : String) (approved : Bool)
    (message : Option String) : PermStore × Option PermissionResultM :=
  if inList requestId st.resolvers then
    let fired :=
      if approved then
        PermissionResultM.allow
          (match alookup st.requests requestId with
           | some r => if r.tool_input = "" then "\x7b\x7d" else r.tool_input
           | none => "\x7b\x7d")
      else
        PermissionResultM.deny (message.getD "Permission denied by user")
    ({ requests := aerase st.requests requestId
       resolvers := st.resolvers.filter (fun k => k != requestId) },
     some fired)
  else (st, none)

/-- Embedding of PermissionStore.delete. -/
def permDelete (st : PermStore) (requestId : String) : PermStore :=
  { st with requests := aerase st.requests requestId }

/-- Embedding of PermissionStore.clearAll: every stored resolver fires a
deny with the session-reset reason, then both maps are cleared. -/
def permClearAll (st : PermStore) : PermStore × List PermissionResultM :=
  (permStoreInit,
   st.resolvers.map (fun _ =>
     PermissionResultM.deny "Permission request cleared (new session started)"))

/-! ## Permission system with an explicit clock

The operations of the permission store together with the passage of time.
JavaScript timers only run callbacks registered through setTimeout or
setInterval; permission-store.ts registers none, so advancing the clock
runs no permission-store code: the advanceTime step below changes the
clock and nothing else, which is the faithful embedding of that absence. -/

/-- Millisecond timestamps rendered as strings stand in for the ISO
timestamps of new Date. -/
def isoStamp (ms : Nat) : String := toString ms

/-- Operations on the permission store, plus the passage of time. -/
inductive PermOp where
  | createOp (requestId : String) (chatId : Int) (toolName toolInput formattedRequest : String)
  | createPromiseOp (requestId : String)
  | updateOp (requestId : String) (status : PermStatus) (response : Option String)
  | resolveOp (requestId : String) (approved : Bool) (message : Option String)
  | deleteOp (requestId : String)
  | clearAllOp
  | advanceTime (ms : Nat)
deriving Repr, DecidableEq

/-- The store together with the clock. -/
structure PermSys where
  store : PermStore
  nowMs : Nat
deriving Repr, DecidableEq

/-- The initial system: empty store at time zero. -/
def permSysInit : PermSys := { store := permStoreInit, nowMs := 0 }

/-- One step of the permission system.  The second component lists the
results fired into suspended waiters during the step. -/
def permStep (sys : PermSys) : PermOp → PermSys × List PermissionResultM
  | .createOp id chat tn ti fr =>
    ({ sys with store := permCreate sys.store id chat tn ti fr (isoStamp sys.nowMs) }, [])
  | .createPromiseOp id =>
    ({ sys with store := permCreatePromise sys.store id }, [])
  | .updateOp id st resp =>
    ({ sys with store := permUpdate sys.store id st resp (isoStamp sys.nowMs) }, [])
  | .resolveOp id ap msg =>
    let r := permResolve sys.store id ap msg
    ({ sys with store := r.1 },
     match r.2 with
     | some fired => [fired]
     | none => [])
  | .deleteOp id =>
    ({ sys with store := permDelete sys.store id }, [])
  | .clearAllOp =>
    let r := permClearAll sys.store
    ({ sys with store := r.1 }, r.2)
  | .advanceTime d =>
    ({ sys with nowMs := sys.nowMs + d }, [])

/-- Run a list of operations, accumulating the fired results. -/
def runPermOps : PermSys → List PermOp → PermSys × List PermissionResultM
  | sys, [] => (sys, [])
  | sys, op :: rest =>
    let r1 := permStep sys op
    let r2 := runPermOps r1.1 rest
    (r2.1, r1.2 ++ r2.2)

/-! ## Permission callback of the session orchestrator (src/session.ts) -/

/-- Decision taken by the canUseTool callback, one constructor per return
path of the source: deny for plan mode, allow for bypass mode, auto-allow
of the internal plan-mode MCP tools, dispatch to the ask-user handler,
deny for an unsafe Bash command, auto-allow by a stored project rule, or
creation of a PermissionRequest followed by suspension on
waitForPermission. -/
inductive CanUseDecision where
  | denyPlanMode (message : String)
  | allowBypass
  | allowInternalMcp
  | handleAskUser
  | denyUnsafe (message : String)
  | allowStoredRule
  | awaitUserPermission (toolName serializedInput : String)
deriving Repr, DecidableEq

/-- Embedding of the canUseTool callback built in sendMessageStreaming
(session.ts).  The checkSafety parameter abstracts checkCommandSafety of
src/security.ts, whose verdict depends on the configured blocked patterns
and on the file system; the decision order around it is embedded exactly.
The storedPermissions parameter is the allow list loaded from
.claude/settings.local.json. -/
def canUseTool (inPlanMode shouldBypassPermissions : Bool)
    (checkSafety : String → Bool × String)
    (storedPermissions : List String) (workingDir : String)
    (toolName : String) (input : ToolInput) : CanUseDecision :=
  if inPlanMode && isWriteTool (getBaseToolName toolName) then
    .denyPlanMode
      ("Tool \"" ++ getBaseToolName toolName ++ "\" is blocked in plan mode.")
  else if shouldBypassPermissions then .allowBypass
  else if strStartsWith toolName "mcp__plan-mode__" then .allowInternalMcp
  else if toolName = "AskUserQuestion" then .handleAskUser
  else
    let bashBlocked :=
      if toolName = "Bash" then
        let command := input.command.getD input.serialized
        let safety := checkSafety command
        if !safety.1 then some ("Blocked: " ++ safety.2) else none
      else none
    match bashBlocked with
    | some msg => .denyUnsafe msg
    | none =>
      if matchesPermission toolName input storedPermissions workingDir then
        .allowStoredRule
      else .awaitUserPermission toolName input.serialized

/-- Whether a decision path creates a PermissionRequest in the store:
only the final suspension path calls createPermissionRequest. -/
def canUseToolCreatesRequest : CanUseDecision → Bool
  | .awaitUserPermission _ _ => true
  | _ => false

/-- Embedding of shouldBypassPermissions (session.ts): bypass only outside
plan mode and only when the permission mode is not interactive. -/
def shouldBypassPermissionsOf (inPlanMode : Bool) (permissionMode : String) : Bool :=
  !inPlanMode && permissionMode != "interactive"

/-! ## Ask-user store (src/ask-user-store.ts) -/

/-- Status values of an AskUserRequest. -/
inductive AskStatus where
  | pending
  | sent
  | answered
deriving Repr, DecidableEq

/-- Embedding of the AskUserRequest interface.  The resolve and reject
fields of the source hold the promise callbacks; hasResolver records
whether they have been installed. -/
structure AskReq where
  request_id : String
  chat_id : String
  question : String
  options : List String
  status : AskStatus
  created_at : Nat
  hasResolver : Bool
deriving Repr, DecidableEq

/-- State of the AskUserStore singleton together with the JavaScript timer
queue and the clock: each pending timer is a deadline in milliseconds
paired with the request id its timeout callback closes over. -/
structure AskSys where
  requests : List (String × AskReq)
  timers : List (Nat × String)
  nowMs : Nat
deriving Repr, DecidableEq

/-- The initial ask system. -/
def askSysInit : AskSys := { requests := [], timers := [], nowMs := 0 }

/-- The five-minute timeout of createWithPromise, in milliseconds. -/
def ASK_TIMEOUT_MS : Nat := 5 * 60 * 1000

/-- Events a step of the ask system can fire into suspended waiters. -/
inductive AskOutcome where
  | answered (requestId answer : String)
  | timedOut (requestId : String)
deriving Repr, DecidableEq

/-- Result of a createWithPromise call. -/
inductive AskCreateResult where
  | pendingRegistered
  | errNoDisplayFn
  | errDisplayFailed
  | errUnexpectedlyDeleted
deriving Repr, DecidableEq

/-- Embedding of AskUserStore.createWithPromise.  The displayOutcome
parameter abstracts the registered display callback: none models a store
with no display function set, some false a display function that throws,
some true a successful display.  The source first stores the request (with
the synthetic Custom answer option appended), then displays; on a missing
or failing display function it deletes the request again and throws.  On
success the promise executor looks the request up, installs the resolver
and registers the five-minute timeout. -/
def askCreateWithPromise (sys : AskSys) (requestId chatId question : String)
    (options : List String) (displayOutcome : Option Bool) :
    AskSys × AskCreateResult :=
  let optionsWithOther := options ++ ["Custom answer..."]
  let req : AskReq :=
    { request_id := requestId
      chat_id := chatId
      question := question
      options := optionsWithOther
      status := .pending
      created_at := sys.nowMs
      hasResolver := false }
  let sys1 := { sys with requests := aset sys.requests requestId req }
  match displayOutcome with
  | none =>
    ({ sys1 with requests := aerase sys1.requests requestId }, .errNoDisplayFn)
  | some false =>
    ({ sys1 with requests := aerase sys1.requests requestId }, .errDisplayFailed)
  | some true =>
    match alookup sys1.requests requestId with
    | none => (sys1, .errUnexpectedlyDeleted)
    | some r =>
      ({ sys1 with
         requests := aset sys1.requests requestId { r with hasResolver := true }
         timers := sys1.timers ++ [(sys.nowMs + ASK_TIMEOUT_MS, requestId)] },
       .pendingRegistered)

/-- Embedding of AskUserStore.answer: a missing request is a warned no-op;
otherwise the resolver (when installed) fires with the selected option, the
status is set to answered and the request is deleted. -/
def askAnswer (sys : AskSys) (requestId selectedOption : String) :
    AskSys × List AskOutcome :=
  match alookup sys.requests requestId with
  | none => (sys, [])
  | some r =>
    ({ sys with requests := aerase sys.requests requestId },
     if r.hasResolver then [.answered requestId selectedOption] else [])

/-- Embedding of AskUserStore.delete. -/
def askDelete (sys : AskSys) (requestId : String) : AskSys :=
  { sys with requests := aerase sys.requests requestId }

/-- Embedding of AskUserStore.clearAll: the requests map is cleared.  The
pending timers and promises are untouched: the source neither cancels the
timeouts nor rejects the promises. -/
def askClearAll (sys : AskSys) : AskSys :=
  { sys with requests := [] }

/-- Run the timeout callbacks of a list of due timers in order: each
callback checks whether its request is still in the store and, if so,
deletes it and rejects the suspended call with the five-minute timeout
error. -/
def fireTimers : List (Nat × String) → List (String × AskReq) →
    List (String × AskReq) × List AskOutcome
  | [], reqs => (reqs, [])
  | (_, tid) :: rest, reqs =>
    match alookup reqs tid with
    | some _ =>
      let r := fireTimers rest (aerase reqs tid)
      (r.1, .timedOut tid :: r.2)
    | none => fireTimers rest reqs

/-- Operations on the ask system, plus the passage of time. -/
inductive AskOp where
  | createOp (requestId chatId question : String) (options : List String)
      (displayOutcome : Option Bool)
  | answerOp (requestId selectedOption : String)
  | deleteOp (requestId : String)
  | clearAllOp
  | advanceTime (ms : Nat)
deriving Repr, DecidableEq

/-- One step of the ask system.  Advancing the clock runs the timeout
callbacks of every timer whose deadline has been reached. -/
def askStep (sys : AskSys) : AskOp → AskSys × List AskOutcome
  | .createOp id chat q opts disp =>
    ((askCreateWithPromise sys id chat q opts disp).1, [])
  | .answerOp id sel => askAnswer sys id sel
  | .deleteOp id => (askDelete sys id, [])
  | .clearAllOp => (askClearAll sys, [])
  | .advanceTime d =>
    let now2 := sys.nowMs + d
    let due := sys.timers.filter (fun t => decide (t.1 ≤ now2))
    let rem := sys.timers.filter (fun t => decide (¬ t.1 ≤ now2))
    let r := fireTimers due sys.requests
    ({ requests := r.1, timers := rem, nowMs := now2 }, r.2)

/-- Run a list of ask operations, accumulating the fired outcomes. -/
def runAskOps : AskSys → List AskOp → AskSys × List AskOutcome
  | sys, [] => (sys, [])
  | sys, op :: rest =>
    let r1 := askStep sys op
    let r2 := runAskOps r1.1 rest
    (r2.1, r1.2 ++ r2.2)

/-- Operations that touch a given request id: creating, answering or
deleting that id, or clearing the store.  Pure clock advances never touch
an id. -/
def askOpTouches (requestId : String) : AskOp → Bool
  | .createOp id _ _ _ _ => id == requestId
  | .answerOp id _ => id == requestId
  | .deleteOp id => id == requestId
  | .clearAllOp => true
  | .advanceTime _ => false

/-! ## Crash-retry loop of the text handler (src/handlers/text.ts) -/

/-- Outcome of one sendMessageStreaming attempt: the returned response text
or the thrown error converted to a string. -/
inductive AttemptOutcome where
  | success (response : String)
  | failure (errorText : String)
deriving Repr, DecidableEq

/-- Observable events of one handleText turn, in order: the audit log of a
successful response, the session.kill call that clears the session id, the
crash-retry notice, the stopped notice (shown or suppressed according to
the interrupt flag) and the terminal error notice. -/
inductive TurnEvent where
  | auditLogged (response : String)
  | sessionKilled
  | crashRetryNotice
  | stoppedNotice
  | stoppedNoticeSuppressed
  | errorNotice (message : String)
deriving Repr, DecidableEq

/-- Embedding of the crash signature test of the text handler: the error
text contains the words, exited with code. -/
def isClaudeCodeCrash (errorText : String) : Bool :=
  strIncludes errorText "exited with code"

/-- Embedding of the cancellation test of the text handler: the error text
contains abort or cancel. -/
def isCancellationError (errorText : String) : Bool :=
  strIncludes errorText "abort" || strIncludes errorText "cancel"

/-- Retry bound of the text handler. -/
def MAX_RETRIES : Nat := 1

/-- Terminal handling of a failed final attempt: a cancellation shows the
stopped notice unless the interrupt flag suppresses it; any other error
shows the first two hundred characters of the error text. -/
def terminalFailureEvent (wasInterrupt : Bool) (errorText : String) : TurnEvent :=
  if isCancellationError errorText then
    if wasInterrupt then .stoppedNoticeSuppressed else .stoppedNotice
  else .errorNotice (strTake errorText 200)

/-- Embedding of the retry loop of handleText (text.ts): the outcomes
function gives the result of the attempt with each index (every attempt
sends the same stored message).  A success audit-logs and exits the loop; a
failure whose text carries the crash signature is retried, after killing
the session and announcing the retry, as long as the attempt counter is
below the retry bound; any other failure, and a failure on the final
attempt, is terminal. -/
def textAttemptLoop (outcomes : Nat → AttemptOutcome) (wasInterrupt : Bool)
    (attempt : Nat) : List TurnEvent :=
  if MAX_RETRIES < attempt then []
  else
    match outcomes attempt with
    | .success r => [.auditLogged r]
    | .failure e =>
      if isClaudeCodeCrash e && decide (attempt < MAX_RETRIES) then
        .sessionKilled :: .crashRetryNotice ::
          textAttemptLoop outcomes wasInterrupt (attempt + 1)
      else [terminalFailureEvent wasInterrupt e]
termination_by MAX_RETRIES + 1 - attempt

/-- The whole turn starts at attempt zero. -/
def handleTextEvents (outcomes : Nat → AttemptOutcome) (wasInterrupt : Bool) :
    List TurnEvent :=
  textAttemptLoop outcomes wasInterrupt 0

/-- Count the session.kill events of a turn. -/
def countKills : List TurnEvent → Nat
  | [] => 0
  | .sessionKilled :: t => countKills t + 1
  | _ :: t => countKills t

/-- Clock advance contributed by one ask operation. -/
def askOpAdvance : AskOp → Nat
  | .advanceTime d => d
  | _ => 0

/-- Total clock advance of a list of ask operations. -/
def totalAdvance (ops : List AskOp) : Nat := (ops.map askOpAdvance).sum

/-- The ask system right after a createWithPromise call whose display
succeeded. -/
def askAfterCreate (sys : AskSys) (requestId chatId question : String)
    (options : List String) : AskSys :=
  (askCreateWithPromise sys requestId chatId question options (some true)).1

/-- Invariant carried through the run of C6: either the request is still in
the store and a timer for it with a deadline at most the original one is
pending and not yet due, or the request is gone and its timeout rejection
has been fired. -/
def askPendingOrTimedOut (requestId : String) (deadline : Nat) (sys : AskSys)
    (outs : List AskOutcome) : Prop :=
  ((alookup sys.requests requestId).isSome = true
    ∧ ∃ dl, (dl, requestId) ∈ sys.timers ∧ dl ≤ deadline ∧ sys.nowMs < dl)
  ∨ (alookup sys.requests requestId = none
    ∧ AskOutcome.timedOut requestId ∈ outs)

/-! ## Shared lemmas -/

/-- inList agrees with list membership. -/
theorem inList_iff_mem (x : String) (l : List String) : inList x l = true ↔ x ∈ l := by
  induction l with
  | nil => simp [inList]
  | cons y ys ih =>
    by_cases h : y = x
    · subst h
      simp [inList]
    · simp only [inList, if_neg h, ih, List.mem_cons]
      constructor
      · exact fun hm => Or.inr hm
      · rintro (hxy | hm)
        · exact absurd hxy.symm h
        · exact hm

/-- Looking up an erased key yields nothing. -/
theorem alookup_aerase_self {α : Type} (l : List (String × α)) (k : String) :
    alookup (aerase l k) k = none := by
  induction l with
  | nil => rfl
  | cons p t ih =>
    obtain ⟨k2, v⟩ := p
    by_cases h : k2 = k
    · simpa [aerase, h] using ih
    · simpa [aerase, alookup, h] using ih

/-- Erasing one key leaves lookups of other keys unchanged. -/
theorem alookup_aerase_ne {α : Type} (l : List (String × α)) (k k2 : String)
    (h : k2 ≠ k) : alookup (aerase l k) k2 = alookup l k2 := by
  induction l with
  | nil => rfl
  | cons p t ih =>
    obtain ⟨k3, v⟩ := p
    by_cases h3 : k3 = k
    · subst h3
      rw [show aerase ((k3, v) :: t) k3 = aerase t k3 from by simp [aerase], ih]
      have hne : ¬ (k3 = k2) := fun hh => h hh.symm
      simp [alookup, hne]
    · rw [show aerase ((k3, v) :: t) k = (k3, v) :: aerase t k from by simp [aerase, h3]]
      simp only [alookup]
      split
      · rfl
      · exact ih

/-- Looking up a freshly set key yields the new value. -/
theorem alookup_aset_self {α : Type} (l : List (String × α)) (k : String) (v : α) :
    alookup (aset l k v) k = some v := by
  induction l with
  | nil => simp [aset, alookup]
  | cons p t ih =>
    obtain ⟨k2, w⟩ := p
    by_cases h : k2 = k
    · simp [aset, h, alookup]
    · simpa [aset, alookup, h] using ih

/-- Setting one key leaves lookups of other keys unchanged. -/
theorem alookup_aset_ne {α : Type} (l : List (String × α)) (k k2 : String) (v : α)
    (h : k2 ≠ k) : alookup (aset l k v) k2 = alookup l k2 := by
  induction l with
  | nil =>
    have hne : ¬ (k = k2) := fun hh => h hh.symm
    simp [aset, alookup, hne]
  | cons p t ih =>
    obtain ⟨k3, w⟩ := p
    by_cases h3 : k3 = k
    · subst h3
      rw [show aset ((k3, w) :: t) k3 v = (k3, v) :: t from by simp [aset]]
      have hne : ¬ (k3 = k2) := fun hh => h hh.symm
      simp [alookup, hne]
    · rw [show aset ((k3, w) :: t) k v = (k3, w) :: aset t k v from by simp [aset, h3]]
      simp only [alookup]
      split
      · rfl
      · exact ih

/-- A key is never a member of the resolver list filtered against it. -/
theorem inList_filter_bne_self (l : List String) (k : String) :
    inList k (l.filter (fun x => x != k)) = false := by
  induction l with
  | nil => simp [inList]
  | cons y ys ih =>
    by_cases h : y = k
    · subst h
      simpa using ih
    · rw [List.filter_cons_of_pos (by simpa using h)]
      simpa [inList, h] using ih

/-! ## Claim C1 -/

/-- One plan transition keeps restricted_tools equal to RESTRICTED_TOOLS
whenever plan mode is enabled. -/
theorem planTransition_restricted (sid : Option String) (now : String)
    (s : PlanState) (tr : PlanTransition)
    (h : s.plan_mode_enabled = true → s.restricted_tools = RESTRICTED_TOOLS) :
    (planTransition sid now s tr).2.plan_mode_enabled = true →
    (planTransition sid now s tr).2.restricted_tools = RESTRICTED_TOOLS := by
  cases tr with
  | enterPlanMode => intro _; rfl
  | writePlan f =>
    simp only [planTransition]
    split
    · exact h
    · exact h
  | updatePlan c =>
    simp only [planTransition]
    split
    · exact h
    · exact h
  | requestApproval r =>
    simp only [planTransition]
    split
    · exact h
    · exact h
  | approvePlan =>
    intro h2
    exact absurd h2 (by simp [planTransition])
  | rejectPlan => exact h
  | clearContext =>
    intro h2
    exact absurd h2 (by simp [planTransition, createEmptyState])
  | exitPlanMode =>
    intro h2
    exact absurd h2 (by simp [planTransition])

/-- Reachability form of the restricted_tools invariant. -/
theorem runPlanTransitions_restricted (sid : Option String) (now : String)
    (ts : List PlanTransition) (s : PlanState)
    (h : s.plan_mode_enabled = true → s.restricted_tools = RESTRICTED_TOOLS) :
    (runPlanTransitions sid now s ts).plan_mode_enabled = true →
    (runPlanTransitions sid now s ts).restricted_tools = RESTRICTED_TOOLS := by
  induction ts generalizing s with
  | nil => exact h
  | cons t ts2 ih =>
    exact ih _ (planTransition_restricted sid now s t h)

/-- C1: in every gate state reachable by transitions from the empty state,
isToolAllowed returns true for every tool name while plan mode is disabled;
while plan mode is enabled it returns true exactly for the tool names whose
base name is on the fixed RESTRICTED_TOOLS allow-list, and in particular it
returns false for every mutating tool name (base name on WRITE_TOOLS, that
is Write, Edit or NotebookEdit). -/
theorem C1_isToolAllowed_gate (sid : Option String) (now : String)
    (ts : List PlanTransition) (t : String) :
    ((runPlanTransitions sid now createEmptyState ts).plan_mode_enabled = false →
      isToolAllowed (runPlanTransitions sid now createEmptyState ts) t = true)
    ∧ ((runPlanTransitions sid now createEmptyState ts).plan_mode_enabled = true →
      (isToolAllowed (runPlanTransitions sid now createEmptyState ts) t = true ↔
        getBaseToolName t ∈ RESTRICTED_TOOLS))
    ∧ ((runPlanTransitions sid now createEmptyState ts).plan_mode_enabled = true →
      getBaseToolName t ∈ WRITE_TOOLS →
      isToolAllowed (runPlanTransitions sid now createEmptyState ts) t = false) := by
  have hinv := runPlanTransitions_restricted sid now ts createEmptyState
    (by intro h; exact absurd h (by simp [createEmptyState]))
  refine ⟨?_, ?_, ?_⟩
  · intro hd
    simp [isToolAllowed, hd]
  · intro he
    rw [isToolAllowed, hinv he, he]
    simp [inList_iff_mem]
  · intro he hw
    rw [isToolAllowed, hinv he, he]
    simp only [Bool.not_true, Bool.false_eq_true, if_false]
    have hnm : getBaseToolName t ∉ RESTRICTED_TOOLS := by
      simp only [WRITE_TOOLS, List.mem_cons, List.not_mem_nil, or_false] at hw
      rcases hw with h | h | h <;> rw [h] <;> decide
    rw [← Bool.not_eq_true, inList_iff_mem]
    exact hnm

/-- C1 witness: after entering plan mode, the mutating Write tool is
rejected while the Read tool stays allowed. -/
theorem C1_isToolAllowed_gate_witness :
    isToolAllowed (runPlanTransitions none "t0" createEmptyState
      [PlanTransition.enterPlanMode]) "Write" = false ∧
    isToolAllowed (runPlanTransitions none "t0" createEmptyState
      [PlanTransition.enterPlanMode]) "Read" = true :=
  ⟨(C1_isToolAllowed_gate none "t0" [PlanTransition.enterPlanMode] "Write").2.2
      (by decide) (by decide),
   ((C1_isToolAllowed_gate none "t0" [PlanTransition.enterPlanMode] "Read").2.1
      (by decide)).mpr (by decide)⟩

/-! ## Claim C8 -/

/-- C8 counterexample: after entering plan mode and writing the artifact
plan-a.md, the gate has an active artifact, yet a further WRITE_PLAN
transition succeeds (returns true) and silently replaces the artifact
reference: the write-artifact transition is not guarded by the absence of
an active artifact. -/
theorem C8_writePlan_counterexample :
    (runPlanTransitions none "t0" createEmptyState
        [PlanTransition.enterPlanMode, PlanTransition.writePlan "plan-a.md"]).active_plan_file
      = some "plan-a.md"
    ∧ (planTransition none "t0"
        (runPlanTransitions none "t0" createEmptyState
          [PlanTransition.enterPlanMode, PlanTransition.writePlan "plan-a.md"])
        (PlanTransition.writePlan "plan-b.md")).1 = true
    ∧ (planTransition none "t0"
        (runPlanTransitions none "t0" createEmptyState
          [PlanTransition.enterPlanMode, PlanTransition.writePlan "plan-a.md"])
        (PlanTransition.writePlan "plan-b.md")).2.active_plan_file = some "plan-b.md" := by
  refine ⟨rfl, rfl, rfl⟩

/-- C8 amended: the WRITE_PLAN transition is guarded by plan mode being
enabled only; whenever the gate is enabled it succeeds, even when an
artifact is already active (which it then overwrites), and whenever the
gate is disabled it is rejected with the state unchanged. -/
theorem C8_writePlan_guard (sid : Option String) (now : String)
    (s : PlanState) (f : String) :
    planTransition sid now s (PlanTransition.writePlan f) =
      if s.plan_mode_enabled then (true, { s with active_plan_file := some f })
      else (false, s) := by
  cases h : s.plan_mode_enabled <;> simp [planTransition, h]

/-! ## Claim C2 -/

/-- C2: while plan approval is pending, shouldBlockTool blocks every write
tool (base name Write, Edit or NotebookEdit) with the pending-approval
reason, regardless of the rest of the gate state (in particular regardless
of the enabled-state allow-list); and whenever plan mode is active, the
canUseTool permission callback answers a write tool with the immediate
plan-mode denial, a path on which no PermissionRequest is created. -/
theorem C2_approval_pending_blocks_writes :
    (∀ (s : PlanState) (t : String),
      s.plan_approval_pending = true →
      getBaseToolName t ∈ WRITE_TOOLS →
      shouldBlockTool s t =
        (true, some "Plan approval pending - write operations blocked"))
    ∧ (∀ (bypass : Bool) (checkSafety : String → Bool × String)
        (perms : List String) (wd t : String) (input : ToolInput),
      getBaseToolName t ∈ WRITE_TOOLS →
      canUseTool true bypass checkSafety perms wd t input =
          CanUseDecision.denyPlanMode
            ("Tool \"" ++ getBaseToolName t ++ "\" is blocked in plan mode.")
        ∧ canUseToolCreatesRequest
            (canUseTool true bypass checkSafety perms wd t input) = false) := by
  constructor
  · intro s t hp hw
    rw [shouldBlockTool, if_pos hp, if_pos ((inList_iff_mem _ _).mpr hw)]
  · intro bypass checkSafety perms wd t input hw
    have hwt : isWriteTool (getBaseToolName t) = true :=
      (inList_iff_mem _ _).mpr hw
    constructor
    · rw [canUseTool, if_pos (by simp [hwt])]
    · rw [canUseTool, if_pos (by simp [hwt])]
      rfl

/-- C2 witness: with plan approval pending the Edit tool is blocked, and in
plan mode a Write invocation is denied by the callback without creating a
permission request. -/
theorem C2_approval_pending_blocks_writes_witness :
    shouldBlockTool { createEmptyState with plan_approval_pending := true } "Edit"
      = (true, some "Plan approval pending - write operations blocked")
    ∧ canUseTool true false (fun _ => (true, "")) [] "/project" "Write"
        { command := none, file_path := some "/project/a.ts", serialized := "x" }
      = CanUseDecision.denyPlanMode "Tool \"Write\" is blocked in plan mode."
    ∧ canUseToolCreatesRequest
        (canUseTool true false (fun _ => (true, "")) [] "/project" "Write"
          { command := none, file_path := some "/project/a.ts", serialized := "x" }) = false := by
  refine ⟨C2_approval_pending_blocks_writes.1 _ "Edit" rfl (by decide), ?_, ?_⟩
  · exact (C2_approval_pending_blocks_writes.2 false (fun _ => (true, "")) []
      "/project" "Write" _ (by decide)).1
  · exact (C2_approval_pending_blocks_writes.2 false (fun _ => (true, "")) []
      "/project" "Write" _ (by decide)).2

/-! ## Claim C3 -/

/-- C3: when a resolver is stored for a request id, resolve fires the
suspended result and immediately deletes both the resolver and the request
record, so the record is absent from the store right afterwards; a second
resolve call with the same id on the resulting store is a warned no-op that
fires nothing and changes nothing. -/
theorem C3_resolve_at_most_once (st : PermStore) (requestId : String)
    (approved : Bool) (message : Option String)
    (h : inList requestId st.resolvers = true) :
    (permResolve st requestId approved message).2.isSome = true
    ∧ alookup (permResolve st requestId approved message).1.requests requestId = none
    ∧ inList requestId (permResolve st requestId approved message).1.resolvers = false
    ∧ permResolve (permResolve st requestId approved message).1 requestId approved message
        = ((permResolve st requestId approved message).1, none) := by
  have hres : (permResolve st requestId approved message).1
      = { requests := aerase st.requests requestId
          resolvers := st.resolvers.filter (fun k => k != requestId) } := by
    rw [permResolve, if_pos h]
  refine ⟨?_, ?_, ?_, ?_⟩
  · rw [permResolve, if_pos h]
    rfl
  · rw [hres]
    exact alookup_aerase_self _ _
  · rw [hres]
    exact inList_filter_bne_self _ _
  · rw [hres, permResolve,
      if_neg (by rw [inList_filter_bne_self]; exact fun hh => nomatch hh)]

/-- C3 witness: a concrete store with one suspended request. -/
theorem C3_resolve_at_most_once_witness :
    (permResolve
      { requests := [("r1",
          { request_id := "r1", chat_id := 7, tool_name := "Bash",
            tool_input := "cmd", formatted_request := "f",
            status := PermStatus.pending, response := none,
            created_at := "0", updated_at := "0" })]
        resolvers := ["r1"] } "r1" true none).2.isSome = true
    ∧ alookup (permResolve
      { requests := [("r1",
          { request_id := "r1", chat_id := 7, tool_name := "Bash",
            tool_input := "cmd", formatted_request := "f",
            status := PermStatus.pending, response := none,
            created_at := "0", updated_at := "0" })]
        resolvers := ["r1"] } "r1" true none).1.requests "r1" = none :=
  ⟨(C3_resolve_at_most_once _ "r1" true none (by decide)).1,
   (C3_resolve_at_most_once _ "r1" true none (by decide)).2.1⟩

/-! ## Claim C4 -/

/-- C4: clearAll fires a session-reset deny into every outstanding
suspended resolver (one per stored resolver, in order) and leaves both the
request map and the resolver map empty; on the empty store it is a no-op
that fires nothing, so calling it twice in a row is a no-op the second
time. -/
theorem C4_clearAll_denies_and_empties (st : PermStore) :
    (permClearAll st).1.requests = []
    ∧ (permClearAll st).1.resolvers = []
    ∧ (permClearAll st).2 = st.resolvers.map (fun _ =>
        PermissionResultM.deny "Permission request cleared (new session started)")
    ∧ permClearAll permStoreInit = (permStoreInit, [])
    ∧ permClearAll (permClearAll st).1 = ((permClearAll st).1, []) :=
  ⟨rfl, rfl, rfl, rfl, rfl⟩

/-! ## Claim C5 -/

/-- C5: a pending permission wait never resolves on the passage of time.
Advancing the clock of the permission system only moves the clock: the
store is untouched and nothing is fired into a suspended waiter, because
permission-store.ts registers no timer (createPromise only stores the
resolver).  Moreover the only operations of the permission system that can
ever fire a suspended result are an explicit resolve and the session-reset
clearAll. -/
theorem C5_no_autonomous_resolution (sys : PermSys) (d : Nat) :
    permStep sys (PermOp.advanceTime d) = ({ sys with nowMs := sys.nowMs + d }, [])
    ∧ (permStep sys (PermOp.advanceTime d)).1.store = sys.store
    ∧ ∀ op : PermOp, (permStep sys op).2 ≠ [] →
        (∃ id ap msg, op = PermOp.resolveOp id ap msg) ∨ op = PermOp.clearAllOp := by
  refine ⟨rfl, rfl, ?_⟩
  intro op hfired
  cases op with
  | createOp id chat tn ti fr => exact absurd rfl hfired
  | createPromiseOp id => exact absurd rfl hfired
  | updateOp id st2 resp => exact absurd rfl hfired
  | resolveOp id ap msg => exact Or.inl ⟨id, ap, msg, rfl⟩
  | deleteOp id => exact absurd rfl hfired
  | clearAllOp => exact Or.inr rfl
  | advanceTime d2 => exact absurd rfl hfired

/-- C5 witness: on a system with one suspended resolver, a session-reset
clearAll does fire, which instantiates the classification hypothesis at a
concrete operation. -/
theorem C5_no_autonomous_resolution_witness :
    (∃ id ap msg, PermOp.clearAllOp = PermOp.resolveOp id ap msg)
    ∨ PermOp.clearAllOp = PermOp.clearAllOp :=
  (C5_no_autonomous_resolution
    { store := { requests := [], resolvers := ["r1"] }, nowMs := 0 } 0).2.2
    PermOp.clearAllOp (by decide)

/-! ## Claim C10 -/

/-- C10: when no display function is registered, or when the registered
display function throws, createWithPromise deletes the just-created request
and propagates the error, leaving no request in the store and registering
no timeout; when the display succeeds, the request stays pending with its
resolver installed and the Custom answer option appended.  Hence every
request that remains in the store after a createWithPromise call has had
its prompt displayed. -/
theorem C10_create_display_failure_cleanup (sys : AskSys)
    (requestId chatId question : String) (options : List String) :
    ((askCreateWithPromise sys requestId chatId question options none).2
        = AskCreateResult.errNoDisplayFn
      ∧ alookup (askCreateWithPromise sys requestId chatId question options
          none).1.requests requestId = none
      ∧ (askCreateWithPromise sys requestId chatId question options none).1.timers
          = sys.timers)
    ∧ ((askCreateWithPromise sys requestId chatId question options (some false)).2
        = AskCreateResult.errDisplayFailed
      ∧ alookup (askCreateWithPromise sys requestId chatId question options
          (some false)).1.requests requestId = none
      ∧ (askCreateWithPromise sys requestId chatId question options (some false)).1.timers
          = sys.timers)
    ∧ ((askCreateWithPromise sys requestId chatId question options (some true)).2
        = AskCreateResult.pendingRegistered
      ∧ alookup (askCreateWithPromise sys requestId chatId question options
          (some true)).1.requests requestId
        = some { request_id := requestId, chat_id := chatId, question := question,
                 options := options ++ ["Custom answer..."],
                 status := AskStatus.pending, created_at := sys.nowMs,
                 hasResolver := true }) := by
  refine ⟨⟨rfl, ?_, rfl⟩, ⟨rfl, ?_, rfl⟩, ?_⟩
  · exact alookup_aerase_self _ _
  · exact alookup_aerase_self _ _
  · simp [askCreateWithPromise, alookup_aset_self]

/-! ## Claim C9 -/

/-- C9: a failure of the engine call whose error text carries the
transport-crash signature (contains, exited with code) makes the handler
kill the session and retry the same prompt exactly once: if the retry also
fails (with any error text) the turn ends with the terminal handling of the
second error and the session was killed exactly once, with no further
retry; if the retry succeeds the turn audit-logs the response.  A first
failure without the crash signature, in particular any cancellation error
(text containing abort or cancel but not the crash signature), is never
retried: the session is not killed and the turn ends with the terminal
handling of the first error. -/
theorem C9_crash_retry_once (outcomes : Nat → AttemptOutcome)
    (wasInterrupt : Bool) (e0 e1 r1 : String) :
    (outcomes 0 = AttemptOutcome.failure e0 → isClaudeCodeCrash e0 = true →
      (outcomes 1 = AttemptOutcome.failure e1 →
        handleTextEvents outcomes wasInterrupt
          = [TurnEvent.sessionKilled, TurnEvent.crashRetryNotice,
             terminalFailureEvent wasInterrupt e1]
        ∧ countKills (handleTextEvents outcomes wasInterrupt) = 1)
      ∧ (outcomes 1 = AttemptOutcome.success r1 →
        handleTextEvents outcomes wasInterrupt
          = [TurnEvent.sessionKilled, TurnEvent.crashRetryNotice,
             TurnEvent.auditLogged r1]))
    ∧ (outcomes 0 = AttemptOutcome.failure e0 → isClaudeCodeCrash e0 = false →
      handleTextEvents outcomes wasInterrupt = [terminalFailureEvent wasInterrupt e0]
      ∧ countKills (handleTextEvents outcomes wasInterrupt) = 0) := by
  have hterm : ∀ (w : Bool) (e : String),
      countKills [terminalFailureEvent w e] = 0 := by
    intro w e
    rw [terminalFailureEvent]
    split
    · split <;> rfl
    · rfl
  constructor
  · intro h0 hc
    have hstep0 : handleTextEvents outcomes wasInterrupt
        = TurnEvent.sessionKilled :: TurnEvent.crashRetryNotice ::
          textAttemptLoop outcomes wasInterrupt 1 := by
      rw [handleTextEvents, textAttemptLoop]
      simp [MAX_RETRIES, h0, hc]
    constructor
    · intro h1
      have hstep1 : textAttemptLoop outcomes wasInterrupt 1
          = [terminalFailureEvent wasInterrupt e1] := by
        rw [textAttemptLoop]
        simp [MAX_RETRIES, h1]
      rw [hstep0, hstep1]
      exact ⟨rfl, by simp [countKills, hterm wasInterrupt e1]⟩
    · intro h1
      have hstep1 : textAttemptLoop outcomes wasInterrupt 1 = [TurnEvent.auditLogged r1] := by
        rw [textAttemptLoop]
        simp [MAX_RETRIES, h1]
      rw [hstep0, hstep1]
  · intro h0 hc
    have hstep0 : handleTextEvents outcomes wasInterrupt
        = [terminalFailureEvent wasInterrupt e0] := by
      rw [handleTextEvents, textAttemptLoop]
      simp [MAX_RETRIES, h0, hc]
    rw [hstep0]
    exact ⟨rfl, hterm wasInterrupt e0⟩

/-- C9 witness: concrete crash-crash and cancellation runs. -/
theorem C9_crash_retry_once_witness :
    (handleTextEvents
        (fun _ => AttemptOutcome.failure "Claude Code process exited with code 1") false
      = [TurnEvent.sessionKilled, TurnEvent.crashRetryNotice,
         TurnEvent.errorNotice "Claude Code process exited with code 1"]
      ∧ countKills (handleTextEvents
          (fun _ => AttemptOutcome.failure "Claude Code process exited with code 1") false) = 1)
    ∧ countKills (handleTextEvents
        (fun _ => AttemptOutcome.failure "The operation was aborted") false) = 0 := by
  have h1 := (C9_crash_retry_once
    (fun _ => AttemptOutcome.failure "Claude Code process exited with code 1") false
    "Claude Code process exited with code 1" "Claude Code process exited with code 1"
    "").1 rfl (by decide)
  have h2 := (C9_crash_retry_once
    (fun _ => AttemptOutcome.failure "The operation was aborted") false
    "The operation was aborted" "" "").2 rfl (by decide)
  refine ⟨⟨?_, (h1.1 rfl).2⟩, h2.2⟩
  have := (h1.1 rfl).1
  rw [this]
  rfl

/-! ## Claim C7 -/

/-- C7: the always-allow round trip fails on the code.  At the Bash command
ls -la /tmp (the very example in the doc comment of
extractBashCommandPrefix, which states it should yield the prefix ls), the
extraction skips the flag token but keeps the following path token, so it
yields the prefix ls /tmp; the saved pattern Bash with argument
ls /tmp colon star then fails to match the generating command, and the
round trip of generate, save, load and match returns false.  Under the
documented prefix ls, as recorded in the same doc comment, the saved
pattern does match the command, exactly as the claim states. -/
theorem C7_roundtrip_fails_at_documented_input :
    extractBashCommandPrefix "ls -la /tmp" = "ls /tmp"
    ∧ generatePermissionPattern "Bash"
        { command := some "ls -la /tmp", file_path := none, serialized := "" }
        "/project"
      = "Bash(ls /tmp:*)"
    ∧ alwaysAllowRoundTrip "Bash"
        { command := some "ls -la /tmp", file_path := none, serialized := "" }
        "/project" [] = false
    ∧ matchesPermission "Bash"
        { command := some "ls -la /tmp", file_path := none, serialized := "" }
        ["Bash(ls:*)"] "/project" = true := by
  refine ⟨by decide, by decide, by decide, by decide⟩

/-! ## Claim C6 -/

/-- A request absent from the store stays absent through timer firing. -/
theorem fireTimers_absent (id : String) : ∀ (due : List (Nat × String))
    (reqs : List (String × AskReq)),
    alookup reqs id = none →
    alookup (fireTimers due reqs).1 id = none := by
  intro due
  induction due with
  | nil => exact fun reqs h => h
  | cons p rest ih =>
    obtain ⟨d1, tid⟩ := p
    intro reqs h
    simp only [fireTimers]
    cases hlook : alookup reqs tid with
    | some r =>
      by_cases he : id = tid
      · exact ih _ (by rw [he]; exact alookup_aerase_self _ _)
      · exact ih _ (by rw [alookup_aerase_ne _ _ _ he]; exact h)
    | none => exact ih _ h

/-- A due timer for a request that is still stored fires: the request is
removed and the timeout rejection is emitted. -/
theorem fireTimers_fires (id : String) : ∀ (due : List (Nat × String))
    (reqs : List (String × AskReq)) (dl : Nat),
    (dl, id) ∈ due →
    (alookup reqs id).isSome = true →
    alookup (fireTimers due reqs).1 id = none
    ∧ AskOutcome.timedOut id ∈ (fireTimers due reqs).2 := by
  intro due
  induction due with
  | nil =>
    intro reqs dl hmem _
    exact absurd hmem (List.not_mem_nil _)
  | cons p rest ih =>
    obtain ⟨d1, tid⟩ := p
    intro reqs dl hmem hpres
    by_cases he : tid = id
    · subst he
      cases hlook : alookup reqs tid with
      | none => rw [hlook] at hpres; exact absurd hpres (by simp)
      | some r =>
        constructor
        · simp only [fireTimers, hlook]
          exact fireTimers_absent tid rest _ (alookup_aerase_self _ _)
        · simp only [fireTimers, hlook]
          exact List.mem_cons_self _ _
    · have hmem2 : (dl, id) ∈ rest := by
        rcases List.mem_cons.mp hmem with h1 | h1
        · exact absurd (congrArg Prod.snd h1).symm he
        · exact h1
      cases hlook : alookup reqs tid with
      | some r =>
        have hpres2 : (alookup (aerase reqs tid) id).isSome = true := by
          rw [alookup_aerase_ne _ _ _ (fun hh => he hh.symm)]
          exact hpres
        have hr := ih (aerase reqs tid) dl hmem2 hpres2
        constructor
        · simp only [fireTimers, hlook]
          exact hr.1
        · simp only [fireTimers, hlook]
          exact List.mem_cons_of_mem _ hr.2
      | none =>
        have hr := ih reqs dl hmem2 hpres
        constructor
        · simp only [fireTimers, hlook]
          exact hr.1
        · simp only [fireTimers, hlook]
          exact hr.2

/-- If timer firing removed a stored request, it emitted the timeout
rejection for it. -/
theorem fireTimers_erased_emits (id : String) : ∀ (due : List (Nat × String))
    (reqs : List (String × AskReq)),
    (alookup reqs id).isSome = true →
    alookup (fireTimers due reqs).1 id = none →
    AskOutcome.timedOut id ∈ (fireTimers due reqs).2 := by
  intro due
  induction due with
  | nil =>
    intro reqs hpres hafter
    rw [show (fireTimers [] reqs).1 = reqs from rfl] at hafter
    rw [hafter] at hpres
    exact absurd hpres (by simp)
  | cons p rest ih =>
    obtain ⟨d1, tid⟩ := p
    intro reqs hpres hafter
    cases hlook : alookup reqs tid with
    | some r =>
      by_cases he : tid = id
      · subst he
        simp only [fireTimers, hlook]
        exact List.mem_cons_self _ _
      · simp only [fireTimers, hlook] at hafter ⊢
        have hpres2 : (alookup (aerase reqs tid) id).isSome = true := by
          rw [alookup_aerase_ne _ _ _ (fun hh => he hh.symm)]
          exact hpres
        exact List.mem_cons_of_mem _ (ih _ hpres2 hafter)
    | none =>
      simp only [fireTimers, hlook] at hafter ⊢
      exact ih _ hpres hafter

/-- Effect of createWithPromise on the requests, timers and clock seen by a
different request id: its lookup is unchanged, existing timers survive and
the clock does not move. -/
theorem askCreate_other (sys : AskSys) (id2 chat q : String)
    (opts : List String) (disp : Option Bool) (id : String)
    (hne : ¬ (id = id2)) :
    alookup (askCreateWithPromise sys id2 chat q opts disp).1.requests id
      = alookup sys.requests id
    ∧ (∀ p : Nat × String, p ∈ sys.timers →
        p ∈ (askCreateWithPromise sys id2 chat q opts disp).1.timers)
    ∧ (askCreateWithPromise sys id2 chat q opts disp).1.nowMs = sys.nowMs := by
  cases disp with
  | none =>
    refine ⟨?_, fun p hp => hp, rfl⟩
    show alookup (aerase (aset sys.requests id2 _) id2) id = _
    rw [alookup_aerase_ne _ _ _ hne, alookup_aset_ne _ _ _ _ hne]
  | some b =>
    cases b with
    | false =>
      refine ⟨?_, fun p hp => hp, rfl⟩
      show alookup (aerase (aset sys.requests id2 _) id2) id = _
      rw [alookup_aerase_ne _ _ _ hne, alookup_aset_ne _ _ _ _ hne]
    | true =>
      refine ⟨?_, ?_, ?_⟩
      · simp only [askCreateWithPromise, alookup_aset_self]
        rw [alookup_aset_ne _ _ _ _ hne, alookup_aset_ne _ _ _ _ hne]
      · intro p hp
        simp only [askCreateWithPromise, alookup_aset_self]
        exact List.mem_append_left _ hp
      · simp only [askCreateWithPromise, alookup_aset_self]

/-- One untouched ask operation preserves the C6 invariant. -/
theorem askStep_preserves_good (id : String) (D : Nat) (sys : AskSys)
    (outs : List AskOutcome) (op : AskOp)
    (hop : askOpTouches id op = false)
    (hg : askPendingOrTimedOut id D sys outs) :
    askPendingOrTimedOut id D (askStep sys op).1 (outs ++ (askStep sys op).2) := by
  unfold askPendingOrTimedOut at hg ⊢
  cases op with
  | createOp id2 chat q opts disp =>
    have hne : ¬ (id = id2) := by
      simp only [askOpTouches, beq_eq_false_iff_ne, ne_eq] at hop
      exact fun hh => hop hh.symm
    have hco := askCreate_other sys id2 chat q opts disp id hne
    rcases hg with ⟨hpres, dl, hmem, hdl, hnow⟩ | ⟨habs, hout⟩
    · left
      refine ⟨?_, dl, hco.2.1 _ hmem, hdl, ?_⟩
      · show (alookup (askCreateWithPromise sys id2 chat q opts disp).1.requests id).isSome = true
        rw [hco.1]
        exact hpres
      · show (askCreateWithPromise sys id2 chat q opts disp).1.nowMs < dl
        rw [hco.2.2]
        exact hnow
    · right
      refine ⟨?_, List.mem_append_left _ hout⟩
      show alookup (askCreateWithPromise sys id2 chat q opts disp).1.requests id = none
      rw [hco.1]
      exact habs
  | answerOp id2 sel =>
    have hne : ¬ (id = id2) := by
      simp only [askOpTouches, beq_eq_false_iff_ne, ne_eq] at hop
      exact fun hh => hop hh.symm
    cases hlook : alookup sys.requests id2 with
    | none =>
      have hstep : askStep sys (AskOp.answerOp id2 sel) = (sys, []) := by
        simp only [askStep, askAnswer, hlook]
      rw [hstep]
      simpa using hg
    | some r =>
      have hstep : askStep sys (AskOp.answerOp id2 sel)
          = ({ sys with requests := aerase sys.requests id2 },
             if r.hasResolver then [AskOutcome.answered id2 sel] else []) := by
        simp only [askStep, askAnswer, hlook]
      rw [hstep]
      rcases hg with ⟨hpres, dl, hmem, hdl, hnow⟩ | ⟨habs, hout⟩
      · left
        refine ⟨?_, dl, hmem, hdl, hnow⟩
        show (alookup (aerase sys.requests id2) id).isSome = true
        rw [alookup_aerase_ne _ _ _ hne]
        exact hpres
      · right
        refine ⟨?_, List.mem_append_left _ hout⟩
        show alookup (aerase sys.requests id2) id = none
        rw [alookup_aerase_ne _ _ _ hne]
        exact habs
  | deleteOp id2 =>
    have hne : ¬ (id = id2) := by
      simp only [askOpTouches, beq_eq_false_iff_ne, ne_eq] at hop
      exact fun hh => hop hh.symm
    rcases hg with ⟨hpres, dl, hmem, hdl, hnow⟩ | ⟨habs, hout⟩
    · left
      refine ⟨?_, dl, hmem, hdl, hnow⟩
      show (alookup (aerase sys.requests id2) id).isSome = true
      rw [alookup_aerase_ne _ _ _ hne]
      exact hpres
    · right
      refine ⟨?_, List.mem_append_left _ hout⟩
      show alookup (aerase sys.requests id2) id = none
      rw [alookup_aerase_ne _ _ _ hne]
      exact habs
  | clearAllOp => simp [askOpTouches] at hop
  | advanceTime d =>
    rcases hg with ⟨hpres, dl, hmem, hdl, hnow⟩ | ⟨habs, hout⟩
    · by_cases hle : dl ≤ sys.nowMs + d
      · have hdue : (dl, id) ∈ sys.timers.filter (fun t => decide (t.1 ≤ sys.nowMs + d)) :=
          List.mem_filter.mpr ⟨hmem, by simpa using hle⟩
        have hf := fireTimers_fires id _ sys.requests dl hdue hpres
        right
        constructor
        · simp only [askStep]
          exact hf.1
        · simp only [askStep]
          exact List.mem_append_right _ hf.2
      · have hrem : (dl, id) ∈ sys.timers.filter (fun t => decide (¬ t.1 ≤ sys.nowMs + d)) :=
          List.mem_filter.mpr ⟨hmem, by simpa using hle⟩
        cases hafter : alookup (fireTimers
            (sys.timers.filter (fun t => decide (t.1 ≤ sys.nowMs + d)))
            sys.requests).1 id with
        | some r2 =>
          left
          refine ⟨?_, dl, ?_, hdl, ?_⟩
          · simp only [askStep]
            rw [hafter]
            rfl
          · simp only [askStep]
            exact hrem
          · simp only [askStep]
            omega
        | none =>
          right
          constructor
          · simp only [askStep]
            exact hafter
          · simp only [askStep]
            exact List.mem_append_right _
              (fireTimers_erased_emits id _ _ hpres hafter)
    · right
      constructor
      · simp only [askStep]
        exact fireTimers_absent id _ _ habs
      · simp only [askStep]
        exact List.mem_append_left _ hout

/-- A run of untouched ask operations preserves the C6 invariant. -/
theorem runAskOps_preserves_good (id : String) (D : Nat) :
    ∀ (ops : List AskOp) (sys : AskSys) (outs : List AskOutcome),
    (∀ op ∈ ops, askOpTouches id op = false) →
    askPendingOrTimedOut id D sys outs →
    askPendingOrTimedOut id D (runAskOps sys ops).1 (outs ++ (runAskOps sys ops).2) := by
  intro ops
  induction ops with
  | nil =>
    intro sys outs _ hg
    simpa [runAskOps] using hg
  | cons op rest ih =>
    intro sys outs hops hg
    have h1 := askStep_preserves_good id D sys outs op
      (hops op (List.mem_cons_self _ _)) hg
    have h2 := ih (askStep sys op).1 (outs ++ (askStep sys op).2)
      (fun o ho => hops o (List.mem_cons_of_mem _ ho)) h1
    simpa [runAskOps, List.append_assoc] using h2

/-- One ask step advances the clock by exactly the clock advance of the
operation. -/
theorem askStep_nowMs (sys : AskSys) (op : AskOp) :
    (askStep sys op).1.nowMs = sys.nowMs + askOpAdvance op := by
  cases op with
  | createOp id2 chat q opts disp =>
    cases disp with
    | none => simp [askStep, askCreateWithPromise, askOpAdvance]
    | some b =>
      cases b with
      | false => simp [askStep, askCreateWithPromise, askOpAdvance]
      | true => simp [askStep, askCreateWithPromise, alookup_aset_self, askOpAdvance]
  | answerOp id2 sel =>
    cases hlook : alookup sys.requests id2 with
    | none => simp [askStep, askAnswer, hlook, askOpAdvance]
    | some r => simp [askStep, askAnswer, hlook, askOpAdvance]
  | deleteOp id2 => simp [askStep, askDelete, askOpAdvance]
  | clearAllOp => simp [askStep, askClearAll, askOpAdvance]
  | advanceTime d => simp [askStep, askOpAdvance]

/-- A run advances the clock by the total clock advance of its
operations. -/
theorem runAskOps_nowMs : ∀ (ops : List AskOp) (sys : AskSys),
    (runAskOps sys ops).1.nowMs = sys.nowMs + totalAdvance ops := by
  intro ops
  induction ops with
  | nil => intro sys; simp [runAskOps, totalAdvance]
  | cons op rest ih =>
    intro sys
    have h1 := askStep_nowMs sys op
    have h2 := ih (askStep sys op).1
    simp only [runAskOps]
    rw [h2, h1, show totalAdvance (op :: rest) = askOpAdvance op + totalAdvance rest
      from by simp [totalAdvance]]
    omega

/-- Shape of the system right after a successful createWithPromise. -/
theorem askAfterCreate_spec (sys : AskSys) (requestId chatId question : String)
    (options : List String) :
    alookup (askAfterCreate sys requestId chatId question options).requests requestId
      = some { request_id := requestId, chat_id := chatId, question := question,
               options := options ++ ["Custom answer..."],
               status := AskStatus.pending, created_at := sys.nowMs,
               hasResolver := true }
    ∧ (sys.nowMs + ASK_TIMEOUT_MS, requestId)
        ∈ (askAfterCreate sys requestId chatId question options).timers
    ∧ (askAfterCreate sys requestId chatId question options).nowMs = sys.nowMs := by
  refine ⟨?_, ?_, ?_⟩
  · simp [askAfterCreate, askCreateWithPromise, alookup_aset_self]
  · simp [askAfterCreate, askCreateWithPromise, alookup_aset_self]
  · simp [askAfterCreate, askCreateWithPromise, alookup_aset_self]

/-- C6: a request created by createWithPromise (with its prompt displayed)
that is never answered, deleted or cleared, over any sequence of further
operations on the store whose clock advances reach the five-minute window,
ends with its suspended call rejected by the timeout (the timeout rejection
is among the fired outcomes) and with the request id no longer in the
store. -/
theorem C6_ask_timeout_expires (sys : AskSys)
    (requestId chatId question : String) (options : List String)
    (ops : List AskOp)
    (hops : ∀ op ∈ ops, askOpTouches requestId op = false)
    (hadv : ASK_TIMEOUT_MS ≤ totalAdvance ops) :
    alookup (runAskOps (askAfterCreate sys requestId chatId question options)
        ops).1.requests requestId = none
    ∧ AskOutcome.timedOut requestId
        ∈ (runAskOps (askAfterCreate sys requestId chatId question options) ops).2 := by
  have hspec := askAfterCreate_spec sys requestId chatId question options
  have hstartGood : askPendingOrTimedOut requestId (sys.nowMs + ASK_TIMEOUT_MS)
      (askAfterCreate sys requestId chatId question options) [] := by
    left
    refine ⟨by rw [hspec.1]; rfl,
      sys.nowMs + ASK_TIMEOUT_MS, hspec.2.1, Nat.le_refl _, ?_⟩
    rw [hspec.2.2]
    have : 0 < ASK_TIMEOUT_MS := by decide
    omega
  have hrun := runAskOps_preserves_good requestId (sys.nowMs + ASK_TIMEOUT_MS)
    ops (askAfterCreate sys requestId chatId question options) [] hops hstartGood
  have hnowf : (runAskOps (askAfterCreate sys requestId chatId question options)
      ops).1.nowMs = sys.nowMs + totalAdvance ops := by
    rw [runAskOps_nowMs, hspec.2.2]
  unfold askPendingOrTimedOut at hrun
  rcases hrun with ⟨_, dl, _, hdl, hnow⟩ | ⟨habs, hout⟩
  · exfalso
    rw [hnowf] at hnow
    omega
  · exact ⟨habs, by simpa using hout⟩

/-- C6 witness: one request, no answer, a single clock advance of exactly
five minutes. -/
theorem C6_ask_timeout_expires_witness :
    alookup (runAskOps (askAfterCreate askSysInit "r1" "c1" "q" ["A"])
        [AskOp.advanceTime 300000]).1.requests "r1" = none
    ∧ AskOutcome.timedOut "r1"
        ∈ (runAskOps (askAfterCreate askSysInit "r1" "c1" "q" ["A"])
            [AskOp.advanceTime 300000]).2 :=
  C6_ask_timeout_expires askSysInit "r1" "c1" "q" ["A"]
    [AskOp.advanceTime 300000] (by decide) (by decide)
